import Mathlib

/-!
Verification of the wolfeidau/mqtt codec (Go) against its natural-language
specification.  The Go sources are shallowly embedded: byte streams are
`List Nat` (each element a byte value), Go's `byte(x)` narrowing conversion
is `x % 256`, machine integers are `Nat` with explicit masks mirroring the
source expressions, and fallible operations return `Except Err _`.

The repository carries two generations of the API:
* the legacy single-struct API of `mqtt.go` (`Mqtt`, `Encode`, `DecodeRead`),
  embedded in namespace `Legacy`;
* the per-message-type API of `messages.go` plus the shared primitives file
  (`DecodeOneMessage`, `NewMessage`, `Header.Decode`), embedded in
  namespace `Msgs`.
The byte-level primitives (`getUint8`, `getUint16`, `getString`,
`setUint8`, `setUint16`, `setString`, `encodeLength`, `decodeLength`,
`boolToByte`) are textually identical in both generations and are embedded
once, at top level.
-/

namespace MqttCodec

/-- The error values of the Go sources (`errors.New` values in `mqtt.go` and
the primitives file).  `eof` stands for the `io.EOF` / `io.ErrUnexpectedEOF`
values produced by `io.ReadFull` when the source is exhausted
(`UnexpectedEndOfInput` in the spec's taxonomy). -/
inductive Err where
  | badMsgType
  | badQos
  | badWillQos
  | badLength
  | badReturnCode
  | dataExceeds
  | eof
  | msgTooLong
deriving DecidableEq

instance {ε α : Type} [DecidableEq ε] [DecidableEq α] : DecidableEq (Except ε α) := fun
  | .error a, .error b =>
    match decEq a b with
    | isTrue h => isTrue (h ▸ rfl)
    | isFalse h => isFalse fun hc => h (Except.error.inj hc)
  | .error _, .ok _ => isFalse fun hc => Except.noConfusion hc
  | .ok _, .error _ => isFalse fun hc => Except.noConfusion hc
  | .ok a, .ok b =>
    match decEq a b with
    | isTrue h => isTrue (h ▸ rfl)
    | isFalse h => isFalse fun hc => h (Except.ok.inj hc)

/-- Go's `byte(x)` narrowing conversion. -/
def byteOf (n : Nat) : Nat := n % 256

/-- `func boolToByte(val bool) byte`. -/
def boolToByte (val : Bool) : Nat := if val then 1 else 0

/-- `func getUint8(r io.Reader, packetRemaining *int32) uint8`.
Returns the byte read, the rest of the stream and the new remaining-length
budget.  The budget check (`*packetRemaining < 1`) raises
`dataExceedsPacketError`; an exhausted reader raises the `io.ReadFull`
error. -/
def getUint8 (s : List Nat) (rem : Nat) : Except Err (Nat × List Nat × Nat) :=
  if rem < 1 then .error .dataExceeds
  else
    match s with
    | [] => .error .eof
    | b :: s1 => .ok (b, s1, rem - 1)

/-- `func getUint16(r io.Reader, packetRemaining *int32) uint16`.
The source computes `uint16(b[0]<<8) + uint16(b[1])`: the shift `b[0]<<8`
is performed at `byte` width before the conversion to `uint16`, which is
mirrored here by `byteOf (b0 <<< 8)`. -/
def getUint16 (s : List Nat) (rem : Nat) : Except Err (Nat × List Nat × Nat) :=
  if rem < 2 then .error .dataExceeds
  else
    match s with
    | b0 :: b1 :: s1 => .ok (byteOf (b0 <<< 8) + b1, s1, rem - 2)
    | _ => .error .eof

/-- `func getString(r io.Reader, packetRemaining *int32) string`.
A 16-bit length prefix read with `getUint16`, a budget check
(`int(*packetRemaining) < strLen`), then `strLen` raw bytes. -/
def getString (s : List Nat) (rem : Nat) :
    Except Err (List Nat × List Nat × Nat) :=
  match getUint16 s rem with
  | .error e => .error e
  | .ok (strLen, s1, rem1) =>
    if rem1 < strLen then .error .dataExceeds
    else if s1.length < strLen then .error .eof
    else .ok (s1.take strLen, s1.drop strLen, rem1 - strLen)

/-- `func setUint8(val uint8, buf *bytes.Buffer)`. -/
def setUint8 (val : Nat) : List Nat := [byteOf val]

/-- `func setUint16(val uint16, buf *bytes.Buffer)`: writes
`byte(val & 0xff00 >> 8)` then `byte(val & 0x00ff)` (Go parses the first
expression as `(val & 0xff00) >> 8`). -/
def setUint16 (val : Nat) : List Nat :=
  [byteOf ((val &&& 0xff00) >>> 8), byteOf (val &&& 0x00ff)]

/-- `func setString(val string, buf *bytes.Buffer)`: the length is first
narrowed by Go's `uint16(len(val))` conversion, then the raw bytes
follow. -/
def setString (val : List Nat) : List Nat :=
  setUint16 (val.length % 65536) ++ val

/-- The body of `decodeLength`'s `for i := 0; i < 4; i++` loop: at most four
bytes are consumed, 7-bit groups accumulate with an increasing shift, and
the first byte with a clear top bit terminates.  Exhausting the iteration
counter raises `badLengthEncodingError`; the consumed-so-far stream is
returned alongside the result (mirroring the reader's advancing
position). -/
def decodeLengthAux : Nat → Nat → Nat → List Nat → Except Err Nat × List Nat
  | 0, _, _, s => (.error .badLength, s)
  | _ + 1, _, _, [] => (.error .eof, [])
  | i + 1, v, shift, b :: s1 =>
    let v1 := v ||| ((b &&& 0x7f) <<< shift)
    if b &&& 0x80 == 0 then (.ok v1, s1)
    else decodeLengthAux i v1 (shift + 7) s1

/-- `func decodeLength(r io.Reader) int32`. -/
def decodeLength (s : List Nat) : Except Err Nat × List Nat :=
  decodeLengthAux 4 0 0 s

/-- The digit-producing loop of `encodeLength` (`for length > 0`), which
appends base-128 digits least-significant first, setting the continuation
bit on every digit except the last one produced.  The loop runs at most
five times for any Go `int32` argument, so a fuel of 5 at the call site
reproduces it exactly; the fuel-exhausted branch is unreachable for such
arguments. -/
def encodeLengthDigits : Nat → Nat → List Nat
  | _, 0 => []
  | 0, _ + 1 => []
  | fuel + 1, len + 1 =>
    let digit := (len + 1) % 128
    let rest := (len + 1) / 128
    (if rest > 0 then digit ||| 0x80 else digit) :: encodeLengthDigits fuel rest

/-- `func encodeLength(length int32, buf *bytes.Buffer)`: zero is a single
`0x00` byte; otherwise the digits collected least-significant-first in
`lbuf` are written out in reverse (`buf.WriteByte(blen[len(blen)-i])` for
`i = 1 .. len(blen)`), i.e. most-significant digit first. -/
def encodeLength (length : Nat) : List Nat :=
  if length = 0 then [0]
  else (encodeLengthDigits 5 length).reverse

end MqttCodec

namespace MqttCodec

/-! ## Legacy single-struct API (`mqtt.go`) -/

namespace Legacy

/-- `MessageType` constants of `mqtt.go` (`CONNECT = MessageType(iota + 1)`…). -/
def CONNECT : Nat := 1
def CONNACK : Nat := 2
def PUBLISH : Nat := 3
def PUBACK : Nat := 4
def PUBREC : Nat := 5
def PUBREL : Nat := 6
def PUBCOMP : Nat := 7
def SUBSCRIBE : Nat := 8
def SUBACK : Nat := 9
def UNSUBSCRIBE : Nat := 10
def UNSUBACK : Nat := 11
def PINGREQ : Nat := 12
def PINGRESP : Nat := 13
def DISCONNECT : Nat := 14
def msgTypeFirstInvalid : Nat := 15
def qosFirstInvalid : Nat := 3
def retCodeFirstInvalid : Nat := 6

/-- `func (mt MessageType) IsValid() bool`. -/
def msgTypeIsValid (mt : Nat) : Bool := CONNECT ≤ mt && mt < msgTypeFirstInvalid

/-- `func (qos QosLevel) IsValid() bool`. -/
def qosIsValid (qos : Nat) : Bool := qos < qosFirstInvalid

/-- `func (qos QosLevel) HasId() bool`. -/
def qosHasId (qos : Nat) : Bool := qos == 1 || qos == 2

/-- `func (rc ReturnCode) IsValid() bool`. -/
def retCodeIsValid (rc : Nat) : Bool := rc < retCodeFirstInvalid

/-- `type Header struct` of `mqtt.go` (includes the message type). -/
structure Header where
  MessageType : Nat := 0
  DupFlag : Bool := false
  Retain : Bool := false
  QosLevel : Nat := 0
deriving DecidableEq

/-- `type ConnectFlags struct`. -/
structure ConnectFlags where
  UsernameFlag : Bool := false
  PasswordFlag : Bool := false
  WillRetain : Bool := false
  WillFlag : Bool := false
  CleanSession : Bool := false
  WillQos : Nat := 0
deriving DecidableEq

/-- `type Mqtt struct`: the flat value carrying the union of all message
fields (strings are byte lists). -/
structure Mqtt where
  Header : Header := {}
  ProtocolName : List Nat := []
  TopicName : List Nat := []
  ClientId : List Nat := []
  WillTopic : List Nat := []
  WillMessage : List Nat := []
  Username : List Nat := []
  Password : List Nat := []
  ProtocolVersion : Nat := 0
  ConnectFlags : ConnectFlags := {}
  KeepAliveTimer : Nat := 0
  MessageId : Nat := 0
  Data : List Nat := []
  Topics : List (List Nat) := []
  Topics_qos : List Nat := []
  ReturnCode : Nat := 0
deriving DecidableEq

/-- `func getHeader(r io.Reader) (Header, int32)`: one byte unpacked by
mask/shift, then the remaining length via `decodeLength`. -/
def getHeader (s : List Nat) : Except Err (Header × Nat × List Nat) :=
  match s with
  | [] => .error .eof
  | byte1 :: s1 =>
    let hdr : Header :=
      { MessageType := (byte1 &&& 0xF0) >>> 4
        DupFlag := decide (byte1 &&& 0x08 > 0)
        QosLevel := (byte1 &&& 0x06) >>> 1
        Retain := decide (byte1 &&& 0x01 > 0) }
    match decodeLength s1 with
    | (.error e, _) => .error e
    | (.ok v, s2) => .ok (hdr, v, s2)

/-- `func getConnectFlags(r io.Reader, packetRemaining *int32) ConnectFlags`. -/
def getConnectFlags (s : List Nat) (rem : Nat) :
    Except Err (ConnectFlags × List Nat × Nat) :=
  match getUint8 s rem with
  | .error e => .error e
  | .ok (bit, s1, rem1) =>
    .ok
      ({ UsernameFlag := decide (bit &&& 0x80 > 0)
         PasswordFlag := decide (bit &&& 0x40 > 0)
         WillRetain := decide (bit &&& 0x20 > 0)
         WillQos := (bit &&& 0x18) >>> 3
         WillFlag := decide (bit &&& 0x04 > 0)
         CleanSession := decide (bit &&& 0x02 > 0) }, s1, rem1)

/-- Models the Go pattern `if flag { field = getString(r, &packetRemaining) }`:
when the flag is clear, the field keeps its zero value and nothing is
consumed. -/
def getStringIf (flag : Bool) (s : List Nat) (rem : Nat) :
    Except Err (List Nat × List Nat × Nat) :=
  if flag then getString s rem else .ok ([], s, rem)

/-- The `case CONNECT` branch of `DecodeRead`: protocol name, version,
connect flags, keep-alive, client id, then the flag-dependent will topic,
will message, username and password strings. -/
def decodeConnect (hdr : Header) (s : List Nat) (rem : Nat) : Except Err Mqtt :=
  match getString s rem with
  | .error e => .error e
  | .ok (pn, s1, r1) =>
  match getUint8 s1 r1 with
  | .error e => .error e
  | .ok (ver, s2, r2) =>
  match getConnectFlags s2 r2 with
  | .error e => .error e
  | .ok (cf, s3, r3) =>
  match getUint16 s3 r3 with
  | .error e => .error e
  | .ok (ka, s4, r4) =>
  match getString s4 r4 with
  | .error e => .error e
  | .ok (cid, s5, r5) =>
  match getStringIf cf.WillFlag s5 r5 with
  | .error e => .error e
  | .ok (wt, s6, r6) =>
  match getStringIf cf.WillFlag s6 r6 with
  | .error e => .error e
  | .ok (wm, s7, r7) =>
  match getStringIf cf.UsernameFlag s7 r7 with
  | .error e => .error e
  | .ok (un, s8, r8) =>
  match getStringIf cf.PasswordFlag s8 r8 with
  | .error e => .error e
  | .ok (pw, _, _) =>
    .ok
      { Header := hdr, ProtocolName := pn, ProtocolVersion := ver
        ConnectFlags := cf, KeepAliveTimer := ka, ClientId := cid
        WillTopic := wt, WillMessage := wm, Username := un, Password := pw }

/-- The number of remaining-length budget units the CONNECT decoder
consumes to produce a given message value: 2+len for each length-prefixed
string read, 1 each for the version and connect-flags bytes, 2 for the
keep-alive, with the optional strings counted under their controlling
flags.  Every successful `decodeConnect` consumes exactly this much budget,
so `connectReadSize m1 ≤ B` whenever decoding with budget `B` returns
`m1` (`decodeConnect_ok_size`). -/
def connectReadSize (m : Mqtt) : Nat :=
  (2 + m.ProtocolName.length) + 1 + 1 + 2 + (2 + m.ClientId.length) +
    (if m.ConnectFlags.WillFlag then
      (2 + m.WillTopic.length) + (2 + m.WillMessage.length) else 0) +
    (if m.ConnectFlags.UsernameFlag then 2 + m.Username.length else 0) +
    (if m.ConnectFlags.PasswordFlag then 2 + m.Password.length else 0)

end Legacy

/-- The `for packetRemaining > 0` loop of the SUBSCRIBE decoders: repeated
{topic string, qos byte} pairs (identical in both API generations).
`fuel` bounds the iteration count; each iteration consumes at least three
budget units, so fuel equal to the entering budget can never run out (the
fuel-exhausted branch is unreachable). -/
def readTopicPairs (fuel : Nat) (s : List Nat) (rem : Nat) :
    Except Err (List (List Nat) × List Nat × List Nat) :=
  if rem = 0 then .ok ([], [], s)
  else
    match fuel with
    | 0 => .error .eof
    | fuel1 + 1 =>
      match getString s rem with
      | .error e => .error e
      | .ok (t, s1, r1) =>
      match getUint8 s1 r1 with
      | .error e => .error e
      | .ok (q, s2, r2) =>
      match readTopicPairs fuel1 s2 r2 with
      | .error e => .error e
      | .ok (ts, qs, s3) => .ok (t :: ts, q :: qs, s3)

/-- The `for packetRemaining > 0` loop of the legacy SUBACK branch: repeated
raw qos bytes (no masking in the legacy API). -/
def readQosList (fuel : Nat) (s : List Nat) (rem : Nat) :
    Except Err (List Nat × List Nat) :=
  if rem = 0 then .ok ([], s)
  else
    match fuel with
    | 0 => .error .eof
    | fuel1 + 1 =>
      match getUint8 s rem with
      | .error e => .error e
      | .ok (q, s1, r1) =>
      match readQosList fuel1 s1 r1 with
      | .error e => .error e
      | .ok (qs, s2) => .ok (q :: qs, s2)

/-- The `for packetRemaining > 0` loop of the UNSUBSCRIBE decoders: repeated
topic strings (identical in both API generations). -/
def readTopicList (fuel : Nat) (s : List Nat) (rem : Nat) :
    Except Err (List (List Nat) × List Nat) :=
  if rem = 0 then .ok ([], s)
  else
    match fuel with
    | 0 => .error .eof
    | fuel1 + 1 =>
      match getString s rem with
      | .error e => .error e
      | .ok (t, s1, r1) =>
      match readTopicList fuel1 s1 r1 with
      | .error e => .error e
      | .ok (ts, s2) => .ok (t :: ts, s2)

namespace Legacy

/-- `func DecodeRead(r io.Reader) (mqtt *Mqtt, err error)`: fixed header,
message-type validity check, then the per-type switch.  Message types with
no switch case (PINGREQ, PINGRESP, DISCONNECT) fall through and return the
value holding only the header. -/
def DecodeRead (s : List Nat) : Except Err Mqtt :=
  match getHeader s with
  | .error e => .error e
  | .ok (hdr, rem, s1) =>
    if ¬ msgTypeIsValid hdr.MessageType then .error .badMsgType
    else if hdr.MessageType = CONNECT then decodeConnect hdr s1 rem
    else if hdr.MessageType = CONNACK then
      match getUint8 s1 rem with
      | .error e => .error e
      | .ok (_, s2, r2) =>
      match getUint8 s2 r2 with
      | .error e => .error e
      | .ok (rc, _, _) =>
        if ¬ retCodeIsValid rc then .error .badReturnCode
        else .ok { Header := hdr, ReturnCode := rc }
    else if hdr.MessageType = PUBLISH then
      match getString s1 rem with
      | .error e => .error e
      | .ok (tn, s2, r2) =>
      match
        (if qosHasId hdr.QosLevel then getUint16 s2 r2 else .ok (0, s2, r2) :
          Except Err (Nat × List Nat × Nat)) with
      | .error e => .error e
      | .ok (mid, s3, r3) =>
        if s3.length < r3 then .error .eof
        else .ok { Header := hdr, TopicName := tn, MessageId := mid, Data := s3.take r3 }
    else if hdr.MessageType = PUBACK ∨ hdr.MessageType = PUBREC ∨
        hdr.MessageType = PUBREL ∨ hdr.MessageType = PUBCOMP ∨
        hdr.MessageType = UNSUBACK then
      match getUint16 s1 rem with
      | .error e => .error e
      | .ok (mid, _, _) => .ok { Header := hdr, MessageId := mid }
    else if hdr.MessageType = SUBSCRIBE then
      match
        (if hdr.QosLevel = 1 ∨ hdr.QosLevel = 2 then getUint16 s1 rem
         else .ok (0, s1, rem) : Except Err (Nat × List Nat × Nat)) with
      | .error e => .error e
      | .ok (mid, s2, r2) =>
      match readTopicPairs r2 s2 r2 with
      | .error e => .error e
      | .ok (ts, qs, _) =>
        .ok { Header := hdr, MessageId := mid, Topics := ts, Topics_qos := qs }
    else if hdr.MessageType = SUBACK then
      match getUint16 s1 rem with
      | .error e => .error e
      | .ok (mid, s2, r2) =>
      match readQosList r2 s2 r2 with
      | .error e => .error e
      | .ok (qs, _) => .ok { Header := hdr, MessageId := mid, Topics_qos := qs }
    else if hdr.MessageType = UNSUBSCRIBE then
      match
        (if hdr.QosLevel = 1 ∨ hdr.QosLevel = 2 then getUint16 s1 rem
         else .ok (0, s1, rem) : Except Err (Nat × List Nat × Nat)) with
      | .error e => .error e
      | .ok (mid, s2, r2) =>
      match readTopicList r2 s2 r2 with
      | .error e => .error e
      | .ok (ts, _) => .ok { Header := hdr, MessageId := mid, Topics := ts }
    else .ok { Header := hdr }

/-- `func setHeader(header *Header, buf *bytes.Buffer)`: the fixed-header
byte.  The shifts happen at `byte` width, mirrored by `byteOf`. -/
def setHeader (hdr : Header) : Nat :=
  byteOf (byteOf hdr.MessageType <<< 4) |||
    (boolToByte hdr.DupFlag <<< 3) |||
    byteOf (byteOf hdr.QosLevel <<< 1) |||
    boolToByte hdr.Retain

/-- `func setConnectFlags(flags *ConnectFlags, buf *bytes.Buffer)`: the
connect-flags byte (bit 0 is never set). -/
def setConnectFlags (cf : ConnectFlags) : Nat :=
  (boolToByte cf.UsernameFlag <<< 7) |||
    (boolToByte cf.PasswordFlag <<< 6) |||
    (boolToByte cf.WillRetain <<< 5) |||
    byteOf (byteOf cf.WillQos <<< 3) |||
    (boolToByte cf.WillFlag <<< 2) |||
    (boolToByte cf.CleanSession <<< 1)

/-- The SUBSCRIBE encode loop `for i := 0; i < len(mqtt.Topics); i += 1`
writing `Topics[i]` and `Topics_qos[i]` pairwise (callers keep the two
lists the same length; Go would panic on an index out of range, which this
embedding does not model and no claim exercises). -/
def setTopicPairs : List (List Nat) → List Nat → List Nat
  | [], _ => []
  | _ :: _, [] => []
  | t :: ts, q :: qs => setString t ++ setUint8 q ++ setTopicPairs ts qs

/-- `func valid(mqtt *Mqtt) error`: message type, header QoS and will-QoS
range checks, in source order. -/
def valid (m : Mqtt) : Option Err :=
  if ¬ msgTypeIsValid m.Header.MessageType then some .badMsgType
  else if ¬ qosIsValid m.Header.QosLevel then some .badQos
  else if ¬ qosIsValid m.ConnectFlags.WillQos then some .badWillQos
  else none

/-- The variable-header/payload bytes accumulated in `buf` by the switch in
`Encode` (`mqtt.go`).  Message types without a case (PINGREQ, PINGRESP,
DISCONNECT) contribute no bytes. -/
def encodeBody (m : Mqtt) : List Nat :=
  if m.Header.MessageType = CONNECT then
    setString m.ProtocolName ++ setUint8 m.ProtocolVersion ++
      [setConnectFlags m.ConnectFlags] ++ setUint16 m.KeepAliveTimer ++
      setString m.ClientId ++
      (if m.ConnectFlags.WillFlag then
        setString m.WillTopic ++ setString m.WillMessage else []) ++
      (if m.ConnectFlags.UsernameFlag ∧ 0 < m.Username.length then
        setString m.Username else []) ++
      (if m.ConnectFlags.PasswordFlag ∧ 0 < m.Password.length then
        setString m.Password else [])
  else if m.Header.MessageType = CONNACK then
    [0] ++ setUint8 m.ReturnCode
  else if m.Header.MessageType = PUBLISH then
    setString m.TopicName ++
      (if m.Header.QosLevel = 1 ∨ m.Header.QosLevel = 2 then
        setUint16 m.MessageId else []) ++
      m.Data
  else if m.Header.MessageType = PUBACK ∨ m.Header.MessageType = PUBREC ∨
      m.Header.MessageType = PUBREL ∨ m.Header.MessageType = PUBCOMP ∨
      m.Header.MessageType = UNSUBACK then
    setUint16 m.MessageId
  else if m.Header.MessageType = SUBSCRIBE then
    (if m.Header.QosLevel = 1 ∨ m.Header.QosLevel = 2 then
      setUint16 m.MessageId else []) ++
      setTopicPairs m.Topics m.Topics_qos
  else if m.Header.MessageType = SUBACK then
    setUint16 m.MessageId ++ m.Topics_qos.map byteOf
  else if m.Header.MessageType = UNSUBSCRIBE then
    (if m.Header.QosLevel = 1 ∨ m.Header.QosLevel = 2 then
      setUint16 m.MessageId else []) ++
      (m.Topics.map setString).flatten
  else []

/-- `func Encode(mqtt *Mqtt) ([]byte, error)`: validity check, body build,
the 268435455-byte bound check (`"Message is too long!"`), then the fixed
header byte, the encoded remaining length and the body.  On error Go
returns a nil byte slice: no bytes are produced. -/
def Encode (m : Mqtt) : Except Err (List Nat) :=
  match valid m with
  | some e => .error e
  | none =>
    let body := encodeBody m
    if body.length > 268435455 then .error .msgTooLong
    else .ok (setHeader m.Header :: (encodeLength body.length ++ body))

end Legacy

/-! ## Per-message-type API (`messages.go` and the shared primitives file) -/

namespace Msgs

/-- `MessageType` constants of `messages.go` (`MsgConnect = MessageType(iota + 1)`…). -/
def MsgConnect : Nat := 1
def MsgConnAck : Nat := 2
def MsgPublish : Nat := 3
def MsgPubAck : Nat := 4
def MsgPubRec : Nat := 5
def MsgPubRel : Nat := 6
def MsgPubComp : Nat := 7
def MsgSubscribe : Nat := 8
def MsgSubAck : Nat := 9
def MsgUnsubscribe : Nat := 10
def MsgUnsubAck : Nat := 11
def MsgPingReq : Nat := 12
def MsgPingResp : Nat := 13
def MsgDisconnect : Nat := 14

/-- `type Header struct` of `messages.go` (no message type; that travels
separately). -/
structure Header where
  DupFlag : Bool := false
  Retain : Bool := false
  QosLevel : Nat := 0
deriving DecidableEq

/-- `type Connect struct`. -/
structure Connect where
  Header : Header := {}
  ProtocolName : List Nat := []
  ProtocolVersion : Nat := 0
  WillRetain : Bool := false
  WillFlag : Bool := false
  CleanSession : Bool := false
  WillQos : Nat := 0
  KeepAliveTimer : Nat := 0
  ClientId : List Nat := []
  WillTopic : List Nat := []
  WillMessage : List Nat := []
  UsernameFlag : Bool := false
  PasswordFlag : Bool := false
  Username : List Nat := []
  Password : List Nat := []
deriving DecidableEq

/-- `type ConnAck struct`. -/
structure ConnAck where
  Header : Header := {}
  ReturnCode : Nat := 0
deriving DecidableEq

/-- `type Publish struct` (this revision holds the payload as `Data []byte`). -/
structure Publish where
  Header : Header := {}
  TopicName : List Nat := []
  MessageId : Nat := 0
  Data : List Nat := []
deriving DecidableEq

/-- `type AckCommon struct`: the shared shape of PUBACK, PUBREC, PUBREL,
PUBCOMP and UNSUBACK. -/
structure AckCommon where
  Header : Header := {}
  MessageId : Nat := 0
deriving DecidableEq

/-- `type Subscribe struct`. -/
structure Subscribe where
  Header : Header := {}
  MessageId : Nat := 0
  Topics : List (List Nat) := []
  TopicsQos : List Nat := []
deriving DecidableEq

/-- `type SubAck struct`. -/
structure SubAck where
  Header : Header := {}
  MessageId : Nat := 0
  TopicsQos : List Nat := []
deriving DecidableEq

/-- `type Unsubscribe struct`. -/
structure Unsubscribe where
  Header : Header := {}
  MessageId : Nat := 0
  Topics : List (List Nat) := []
deriving DecidableEq

/-- The closed set of message values implementing the `Message` interface
in `messages.go` (PubAck, PubRec, PubRel, PubComp and UnsubAck each embed
`AckCommon`).  No PingReq, PingResp or Disconnect type exists in this
revision. -/
inductive Msg where
  | connect (m : Connect)
  | connAck (m : ConnAck)
  | publish (m : Publish)
  | pubAck (m : AckCommon)
  | pubRec (m : AckCommon)
  | pubRel (m : AckCommon)
  | pubComp (m : AckCommon)
  | subscribe (m : Subscribe)
  | subAck (m : SubAck)
  | unsubscribe (m : Unsubscribe)
  | unsubAck (m : AckCommon)
deriving DecidableEq

/-- `func NewMessage(msgType MessageType) (msg Message, err error)`: the
zero-valued variant for the given type.  `MsgPingReq`, `MsgPingResp` and
`MsgDisconnect` have no case and fall to the `default` branch, which
returns a nil message together with `badMsgTypeError`. -/
def NewMessage (msgType : Nat) : Option Msg :=
  if msgType = MsgConnect then some (.connect {})
  else if msgType = MsgConnAck then some (.connAck {})
  else if msgType = MsgPublish then some (.publish {})
  else if msgType = MsgPubAck then some (.pubAck {})
  else if msgType = MsgPubRec then some (.pubRec {})
  else if msgType = MsgPubRel then some (.pubRel {})
  else if msgType = MsgPubComp then some (.pubComp {})
  else if msgType = MsgSubscribe then some (.subscribe {})
  else if msgType = MsgUnsubAck then some (.unsubAck {})
  else if msgType = MsgSubAck then some (.subAck {})
  else if msgType = MsgUnsubscribe then some (.unsubscribe {})
  else none

/-- `func (hdr *Header) Decode(r io.Reader)`: mirrors the Go named return
values `(msgType, remainingLength, err)` plus the reader position.  On an
error inside `decodeLength` the function recovers and returns the
already-assigned message type with a zero remaining length and the error;
the error is part of the tuple because `DecodeOneMessage` ignores it. -/
def headerDecode (s : List Nat) :
    Nat × Header × Nat × List Nat × Option Err :=
  match s with
  | [] => (0, {}, 0, [], some .eof)
  | byte1 :: s1 =>
    let msgType := (byte1 &&& 0xF0) >>> 4
    let hdr : Header :=
      { DupFlag := decide (byte1 &&& 0x08 > 0)
        QosLevel := (byte1 &&& 0x06) >>> 1
        Retain := decide (byte1 &&& 0x01 > 0) }
    match decodeLength s1 with
    | (.ok v, s2) => (msgType, hdr, v, s2, none)
    | (.error e, s2) => (msgType, hdr, 0, s2, some e)

/-- `func (msg *Connect) Decode(...)`: note that the source overwrites the
receiver with `*msg = Connect{...}` listing no `Header` field, so the
decoded message keeps a zero header; the `hdr` argument is unused. -/
def connectDecode (s : List Nat) (rem : Nat) : Except Err Connect :=
  match getString s rem with
  | .error e => .error e
  | .ok (pn, s1, r1) =>
  match getUint8 s1 r1 with
  | .error e => .error e
  | .ok (ver, s2, r2) =>
  match getUint8 s2 r2 with
  | .error e => .error e
  | .ok (flags, s3, r3) =>
  match getUint16 s3 r3 with
  | .error e => .error e
  | .ok (ka, s4, r4) =>
  match getString s4 r4 with
  | .error e => .error e
  | .ok (cid, s5, r5) =>
    let willFlag := decide (flags &&& 0x04 > 0)
    let usernameFlag := decide (flags &&& 0x80 > 0)
    let passwordFlag := decide (flags &&& 0x40 > 0)
    match Legacy.getStringIf willFlag s5 r5 with
    | .error e => .error e
    | .ok (wt, s6, r6) =>
    match Legacy.getStringIf willFlag s6 r6 with
    | .error e => .error e
    | .ok (wm, s7, r7) =>
    match Legacy.getStringIf usernameFlag s7 r7 with
    | .error e => .error e
    | .ok (un, s8, r8) =>
    match Legacy.getStringIf passwordFlag s8 r8 with
    | .error e => .error e
    | .ok (pw, _, _) =>
      .ok
        { ProtocolName := pn, ProtocolVersion := ver
          UsernameFlag := usernameFlag, PasswordFlag := passwordFlag
          WillRetain := decide (flags &&& 0x20 > 0)
          WillQos := (flags &&& 0x18) >>> 3
          WillFlag := willFlag
          CleanSession := decide (flags &&& 0x02 > 0)
          KeepAliveTimer := ka, ClientId := cid
          WillTopic := wt, WillMessage := wm, Username := un, Password := pw }

/-- `func (msg *ConnAck) Decode(...)`: reserved byte, return code, range
check. -/
def connAckDecode (msg : ConnAck) (s : List Nat) (rem : Nat) :
    Except Err ConnAck :=
  match getUint8 s rem with
  | .error e => .error e
  | .ok (_, s1, r1) =>
  match getUint8 s1 r1 with
  | .error e => .error e
  | .ok (rc, _, _) =>
    if ¬ Legacy.retCodeIsValid rc then .error .badReturnCode
    else .ok { msg with ReturnCode := rc }

/-- `func (msg *Publish) Decode(...)`: note the QoS gate tests
`msg.Header.QosLevel` — the receiver's header, which is zero-valued when
called through `DecodeOneMessage` — not the `hdr` argument. -/
def publishDecode (msg : Publish) (s : List Nat) (rem : Nat) :
    Except Err Publish :=
  match getString s rem with
  | .error e => .error e
  | .ok (tn, s1, r1) =>
  match
    (if Legacy.qosHasId msg.Header.QosLevel then getUint16 s1 r1
     else .ok (msg.MessageId, s1, r1) : Except Err (Nat × List Nat × Nat)) with
  | .error e => .error e
  | .ok (mid, s2, r2) =>
    if s2.length < r2 then .error .eof
    else .ok { msg with TopicName := tn, MessageId := mid, Data := s2.take r2 }

/-- `func (msg *AckCommon) Decode(...)`: a single message-id read; the
remaining-length budget is not checked for leftover bytes afterwards. -/
def ackDecode (msg : AckCommon) (s : List Nat) (rem : Nat) :
    Except Err AckCommon :=
  match getUint16 s rem with
  | .error e => .error e
  | .ok (mid, _, _) => .ok { msg with MessageId := mid }

/-- `func (msg *Subscribe) Decode(...)`: the message-id read is gated on
the receiver's `msg.Header.QosLevel.HasId()` (zero-valued through
`DecodeOneMessage`), then {topic, qos} pairs until the budget is
exhausted. -/
def subscribeDecode (msg : Subscribe) (s : List Nat) (rem : Nat) :
    Except Err Subscribe :=
  match
    (if Legacy.qosHasId msg.Header.QosLevel then getUint16 s rem
     else .ok (msg.MessageId, s, rem) : Except Err (Nat × List Nat × Nat)) with
  | .error e => .error e
  | .ok (mid, s1, r1) =>
  match readTopicPairs r1 s1 r1 with
  | .error e => .error e
  | .ok (ts, qs, _) =>
    .ok { msg with MessageId := mid, Topics := ts, TopicsQos := qs }

/-- The `for packetRemaining > 0` loop of `SubAck.Decode`: granted-qos
bytes masked with `& 0x03` (unlike the legacy SUBACK loop). -/
def readGrantedQosList (fuel : Nat) (s : List Nat) (rem : Nat) :
    Except Err (List Nat × List Nat) :=
  if rem = 0 then .ok ([], s)
  else
    match fuel with
    | 0 => .error .eof
    | fuel1 + 1 =>
      match getUint8 s rem with
      | .error e => .error e
      | .ok (q, s1, r1) =>
      match readGrantedQosList fuel1 s1 r1 with
      | .error e => .error e
      | .ok (qs, s2) => .ok ((q &&& 0x03) :: qs, s2)

/-- `func (msg *SubAck) Decode(...)`: unconditional message-id read, then
masked granted-qos bytes. -/
def subAckDecode (msg : SubAck) (s : List Nat) (rem : Nat) :
    Except Err SubAck :=
  match getUint16 s rem with
  | .error e => .error e
  | .ok (mid, s1, r1) =>
  match readGrantedQosList r1 s1 r1 with
  | .error e => .error e
  | .ok (qs, _) => .ok { msg with MessageId := mid, TopicsQos := qs }

/-- `func (msg *Unsubscribe) Decode(...)`: the message-id read is gated on
the receiver's header QoS (`qos == 1 || qos == 2`), then topic strings
until the budget is exhausted. -/
def unsubscribeDecode (msg : Unsubscribe) (s : List Nat) (rem : Nat) :
    Except Err Unsubscribe :=
  match
    (if msg.Header.QosLevel = 1 ∨ msg.Header.QosLevel = 2 then getUint16 s rem
     else .ok (msg.MessageId, s, rem) : Except Err (Nat × List Nat × Nat)) with
  | .error e => .error e
  | .ok (mid, s1, r1) =>
  match readTopicList r1 s1 r1 with
  | .error e => .error e
  | .ok (ts, _) => .ok { msg with MessageId := mid, Topics := ts }

/-- Dispatch of `msg.Decode(r, hdr, packetRemaining)` over the concrete
message value (Go interface dispatch).  The `hdr` argument is accepted and
ignored by every decoder, as in the source. -/
def msgDecode (m : Msg) (hdr : Header) (s : List Nat) (rem : Nat) :
    Except Err Msg :=
  match hdr, m with
  | _, .connect _ => (connectDecode s rem).map .connect
  | _, .connAck c => (connAckDecode c s rem).map .connAck
  | _, .publish p => (publishDecode p s rem).map .publish
  | _, .pubAck a => (ackDecode a s rem).map .pubAck
  | _, .pubRec a => (ackDecode a s rem).map .pubRec
  | _, .pubRel a => (ackDecode a s rem).map .pubRel
  | _, .pubComp a => (ackDecode a s rem).map .pubComp
  | _, .subscribe su => (subscribeDecode su s rem).map .subscribe
  | _, .subAck sa => (subAckDecode sa s rem).map .subAck
  | _, .unsubscribe u => (unsubscribeDecode u s rem).map .unsubscribe
  | _, .unsubAck a => (ackDecode a s rem).map .unsubAck

/-- The observable outcome of `DecodeOneMessage`: a message, an error
value, or a runtime panic (a nil-interface method call, which nothing in
the call chain recovers). -/
inductive DecodeOutcome where
  | ok (m : Msg)
  | err (e : Err)
  | panicked
deriving DecidableEq

/-- `func DecodeOneMessage(r io.Reader) (msg Message, err error)`: decodes
the fixed header, but discards its error; builds the zero-valued variant
with `NewMessage`, discarding that error too; then returns
`msg, msg.Decode(r, hdr, packetRemaining)`.  When `NewMessage` returned a
nil message (invalid type nibble, or PINGREQ/PINGRESP/DISCONNECT), the
`msg.Decode` call dereferences a nil interface and panics. -/
def DecodeOneMessage (s : List Nat) : DecodeOutcome :=
  let r := headerDecode s
  match NewMessage r.1 with
  | none => .panicked
  | some m =>
    match msgDecode m r.2.1 r.2.2.2.1 r.2.2.1 with
    | .ok m1 => .ok m1
    | .error e => .err e

/-- `func (hdr *Header) Encode(w io.Writer, msgType MessageType,
remainingLength int32) error`: QoS and message-type range checks, then the
packed fixed-header byte and the encoded remaining length. -/
def headerEncode (hdr : Header) (msgType : Nat) (remainingLength : Nat) :
    Except Err (List Nat) :=
  if ¬ Legacy.qosIsValid hdr.QosLevel then .error .badQos
  else if ¬ Legacy.msgTypeIsValid msgType then .error .badMsgType
  else
    .ok ((byteOf (byteOf msgType <<< 4) |||
        (boolToByte hdr.DupFlag <<< 3) |||
        byteOf (byteOf hdr.QosLevel <<< 1) |||
        boolToByte hdr.Retain) :: encodeLength remainingLength)

/-- `func writeMessage(w io.Writer, msgType MessageType, hdr *Header,
payloadBuf *bytes.Buffer) error`: the fixed header for the payload's
length, then the payload bytes.  No size bound is checked in this
revision. -/
def writeMessage (msgType : Nat) (hdr : Header) (payload : List Nat) :
    Except Err (List Nat) :=
  match headerEncode hdr msgType payload.length with
  | .error e => .error e
  | .ok h => .ok (h ++ payload)

/-- The scratch-buffer bytes of `func (msg *Subscribe) Encode`: the
message-id only when the message's own header QoS `HasId()`, then the
{topic, qos} pairs. -/
def subscribeBody (m : Subscribe) : List Nat :=
  (if Legacy.qosHasId m.Header.QosLevel then setUint16 m.MessageId else []) ++
    Legacy.setTopicPairs m.Topics m.TopicsQos

/-- `func (msg *Subscribe) Encode(w io.Writer) error`. -/
def subscribeEncode (m : Subscribe) : Except Err (List Nat) :=
  writeMessage MsgSubscribe m.Header (subscribeBody m)

/-- The scratch-buffer bytes of `func (msg *SubAck) Encode`: the message-id
unconditionally, then the granted-qos bytes. -/
def subAckBody (m : SubAck) : List Nat :=
  setUint16 m.MessageId ++ m.TopicsQos.map byteOf

/-- `func (msg *SubAck) Encode(w io.Writer) error`. -/
def subAckEncode (m : SubAck) : Except Err (List Nat) :=
  writeMessage MsgSubAck m.Header (subAckBody m)

/-- The scratch-buffer bytes of `func (msg *Publish) Encode`: the topic
string, the message-id when the message's own header QoS `HasId()`, then
the raw payload bytes. -/
def publishBody (m : Publish) : List Nat :=
  setString m.TopicName ++
    (if Legacy.qosHasId m.Header.QosLevel then setUint16 m.MessageId else []) ++
    m.Data

/-- `func (msg *Publish) Encode(w io.Writer) error`: builds the body and
hands it to `writeMessage`; neither performs any size-bound check in this
revision. -/
def publishEncode (m : Publish) : Except Err (List Nat) :=
  writeMessage MsgPublish m.Header (publishBody m)

end Msgs

/-! ## Concrete values used by witnesses -/

/-- The PUBACK value of the repository's `TestEncodeDecode` round-trip
table (`MessageId: 0x1234`), expressed in the legacy API. -/
def pubAckTestVector : Legacy.Mqtt :=
  { Header := { MessageType := Legacy.PUBACK }, MessageId := 0x1234 }

/-- A PUBLISH message whose payload pushes the body past the protocol's
maximum remaining length of 268435455 bytes. -/
def oversizedPublish : Legacy.Mqtt :=
  { Header := { MessageType := Legacy.PUBLISH }, TopicName := [97]
    Data := List.replicate 268435456 0 }

/-- The same oversized PUBLISH expressed in the per-message-type API. -/
def oversizedMsgsPublish : Msgs.Publish :=
  { TopicName := [97], Data := List.replicate 268435456 0 }

/-- A CONNECT value with the username flag set but an empty username
(protocol name "MQIsdp", client id "c"). -/
def emptyUsernameConnect : Legacy.Mqtt :=
  { Header := { MessageType := Legacy.CONNECT }
    ProtocolName := [77, 81, 73, 115, 100, 112], ProtocolVersion := 3
    ConnectFlags := { UsernameFlag := true, CleanSession := true }
    KeepAliveTimer := 10, ClientId := [99], Username := [] }

end MqttCodec

namespace MqttCodec

/-! ## Helper lemmas -/

theorem and255_eq_mod (i : Nat) : i &&& 255 = i % 256 := by
  have h := Nat.and_pow_two_sub_one_eq_mod i 8
  norm_num at h
  exact h

/-- Two 16-bit big-endian encodings of consecutive values always differ (in
their low byte). -/
theorem setUint16_ne_succ (i : Nat) : setUint16 i ≠ setUint16 (i + 1) := by
  intro h
  simp only [setUint16, byteOf, List.cons.injEq, and_true] at h
  obtain ⟨-, h2⟩ := h
  rw [and255_eq_mod, and255_eq_mod] at h2
  omega

/-- A successful `getUint8` consumed exactly one budget unit. -/
theorem getUint8_ok_size (s : List Nat) (rem : Nat) (v : Nat) (s' : List Nat)
    (r' : Nat) (h : getUint8 s rem = .ok (v, s', r')) : rem = r' + 1 := by
  unfold getUint8 at h
  split at h
  · exact absurd h (by simp)
  · split at h
    · exact absurd h (by simp)
    · next b t =>
      rw [Except.ok.injEq, Prod.mk.injEq] at h
      obtain ⟨-, h2⟩ := h
      rw [Prod.mk.injEq] at h2
      omega

/-- A successful `getUint16` consumed exactly two budget units. -/
theorem getUint16_ok_size (s : List Nat) (rem : Nat) (v : Nat) (s' : List Nat)
    (r' : Nat) (h : getUint16 s rem = .ok (v, s', r')) : rem = r' + 2 := by
  unfold getUint16 at h
  split at h
  · exact absurd h (by simp)
  · split at h
    · next b0 b1 t =>
      rw [Except.ok.injEq, Prod.mk.injEq] at h
      obtain ⟨-, h2⟩ := h
      rw [Prod.mk.injEq] at h2
      omega
    · exact absurd h (by simp)

/-- Full inversion of a successful `getUint16`: the budget admitted two
bytes, the stream starts with them, and the value is the (byte-width
truncated) combination of the two. -/
theorem getUint16_ok_inv (s : List Nat) (rem : Nat) (v : Nat) (s' : List Nat)
    (r' : Nat) (h : getUint16 s rem = .ok (v, s', r')) :
    2 ≤ rem ∧ ∃ b0 b1, s = b0 :: b1 :: s' ∧ v = byteOf (b0 <<< 8) + b1 ∧
      r' = rem - 2 := by
  unfold getUint16 at h
  split at h
  · exact absurd h (by simp)
  · next hrem =>
    split at h
    · next b0 b1 t =>
      rw [Except.ok.injEq, Prod.mk.injEq] at h
      obtain ⟨h1, h2⟩ := h
      rw [Prod.mk.injEq] at h2
      refine ⟨by omega, b0, b1, ?_, h1.symm, h2.2.symm⟩
      rw [h2.1]
    · exact absurd h (by simp)

/-- A successful `getString` consumed exactly two budget units for the
length prefix plus one per returned byte. -/
theorem getString_ok_size (s : List Nat) (rem : Nat) (str : List Nat)
    (s' : List Nat) (r' : Nat) (h : getString s rem = .ok (str, s', r')) :
    rem = r' + 2 + str.length := by
  unfold getString at h
  split at h
  · exact absurd h (by simp)
  · next strLen s1 rem1 heq =>
    have hsz := getUint16_ok_size s rem strLen s1 rem1 heq
    split at h
    · exact absurd h (by simp)
    · split at h
      · exact absurd h (by simp)
      · next hbudget havail =>
        rw [Except.ok.injEq, Prod.mk.injEq] at h
        obtain ⟨h1, h2⟩ := h
        rw [Prod.mk.injEq] at h2
        have hlen : str.length = strLen := by
          rw [← h1, List.length_take]
          omega
        omega

/-- Budget accounting for the conditional string read. -/
theorem getStringIf_ok_size (flag : Bool) (s : List Nat) (rem : Nat)
    (str : List Nat) (s' : List Nat) (r' : Nat)
    (h : Legacy.getStringIf flag s rem = .ok (str, s', r')) :
    rem = r' + (if flag then 2 + str.length else 0) := by
  unfold Legacy.getStringIf at h
  split at h
  · next hf =>
    rw [if_pos hf]
    have := getString_ok_size s rem str s' r' h
    omega
  · next hf =>
    rw [if_neg hf]
    rw [Except.ok.injEq, Prod.mk.injEq] at h
    obtain ⟨-, h2⟩ := h
    rw [Prod.mk.injEq] at h2
    omega

/-- A successful `getConnectFlags` consumed exactly one budget unit. -/
theorem getConnectFlags_ok_size (s : List Nat) (rem : Nat)
    (cf : Legacy.ConnectFlags) (s' : List Nat) (r' : Nat)
    (h : Legacy.getConnectFlags s rem = .ok (cf, s', r')) : rem = r' + 1 := by
  unfold Legacy.getConnectFlags at h
  split at h
  · exact absurd h (by simp)
  · next bit s1 rem1 heq =>
    rw [Except.ok.injEq, Prod.mk.injEq] at h
    obtain ⟨-, h2⟩ := h
    rw [Prod.mk.injEq] at h2
    have := getUint8_ok_size s rem bit s1 rem1 heq
    omega

/-- `Subscribe.Decode` through `DecodeOneMessage` operates on the
zero-valued receiver, whose header QoS is 0, so the message-id is never
read: every successful decode leaves it 0. -/
theorem subscribeDecode_zero_receiver_id (s : List Nat) (rem : Nat)
    (m1 : Msgs.Subscribe) (h : Msgs.subscribeDecode {} s rem = .ok m1) :
    m1.MessageId = 0 := by
  unfold Msgs.subscribeDecode at h
  simp only [Legacy.qosHasId] at h
  norm_num at h
  split at h
  · exact absurd h (by simp)
  · next ts qs rest heq =>
    rw [Except.ok.injEq] at h
    rw [← h]

/-- Every successful `SubAck.Decode` starts by reading a two-byte
message-id from the stream. -/
theorem subAckDecode_reads_id (msg : Msgs.SubAck) (s : List Nat) (rem : Nat)
    (m1 : Msgs.SubAck) (h : Msgs.subAckDecode msg s rem = .ok m1) :
    2 ≤ rem ∧ ∃ b0 b1 t, s = b0 :: b1 :: t ∧
      m1.MessageId = byteOf (b0 <<< 8) + b1 := by
  unfold Msgs.subAckDecode at h
  split at h
  · exact absurd h (by simp)
  · next mid s1 r1 heq =>
    obtain ⟨hrem, b0, b1, hs, hv, -⟩ := getUint16_ok_inv s rem mid s1 r1 heq
    split at h
    · exact absurd h (by simp)
    · next qs s2 heq2 =>
      rw [Except.ok.injEq] at h
      refine ⟨hrem, b0, b1, s1, hs, ?_⟩
      rw [← h, hv]

/-- For values below 128 the digit loop produces a single plain byte. -/
theorem encodeLength_small (L : Nat) (h : L < 128) : encodeLength L = [L] := by
  unfold encodeLength
  by_cases h0 : L = 0
  · simp [h0]
  · rw [if_neg h0]
    obtain ⟨l, rfl⟩ : ∃ l, L = l + 1 := ⟨L - 1, by omega⟩
    rw [show encodeLengthDigits 5 (l + 1) =
        (if (l + 1) / 128 > 0 then (l + 1) % 128 ||| 0x80 else (l + 1) % 128) ::
          encodeLengthDigits 4 ((l + 1) / 128) from rfl]
    rw [Nat.div_eq_of_lt h, Nat.mod_eq_of_lt h]
    simp [encodeLengthDigits]

/-- The first byte `encodeLength` emits is the most-significant digit: it
never carries the continuation bit and is at most the encoded value. -/
theorem encodeLengthDigits_reverse_head (fuel : Nat) :
    ∀ L, 1 ≤ L → L < 128 ^ fuel →
    ∃ d t, (encodeLengthDigits fuel L).reverse = d :: t ∧ d < 128 ∧ d ≤ L := by
  induction fuel with
  | zero => intro L h1 h2; simp at h2; omega
  | succ f ih =>
    intro L h1 h2
    obtain ⟨l, rfl⟩ : ∃ l, L = l + 1 := ⟨L - 1, by omega⟩
    rw [show encodeLengthDigits (f + 1) (l + 1) =
        (if (l + 1) / 128 > 0 then (l + 1) % 128 ||| 0x80 else (l + 1) % 128) ::
          encodeLengthDigits f ((l + 1) / 128) from rfl]
    by_cases hrest : (l + 1) / 128 > 0
    · have hlt : (l + 1) / 128 < 128 ^ f := by
        rw [Nat.div_lt_iff_lt_mul (by norm_num)]
        calc l + 1 < 128 ^ (f + 1) := h2
        _ = 128 ^ f * 128 := by rw [Nat.pow_succ]
      obtain ⟨d, t, hrev, hd, hdle⟩ := ih ((l + 1) / 128) hrest hlt
      refine ⟨d, t ++ [if (l + 1) / 128 > 0 then (l + 1) % 128 ||| 0x80
        else (l + 1) % 128], ?_, hd, ?_⟩
      · rw [List.reverse_cons, hrev]
        simp
      · calc d ≤ (l + 1) / 128 := hdle
        _ ≤ l + 1 := Nat.div_le_self _ _
    · have hsmall : l + 1 < 128 :=
        (Nat.div_eq_zero_iff (by norm_num)).mp (by omega)
      rw [if_neg hrest, Nat.mod_eq_of_lt hsmall,
        show (l + 1) / 128 = 0 by omega]
      exact ⟨l + 1, [], by simp [encodeLengthDigits], hsmall, Nat.le_refl _⟩

/-- `decodeLength` stops at a first byte with a clear continuation bit. -/
theorem decodeLength_head_clear (d : Nat) (t : List Nat) (hd : d < 128) :
    decodeLength (d :: t) = (.ok d, t) := by
  have h80 : d &&& 0x80 = 0 := by
    have h := Nat.and_two_pow d 7
    rw [Nat.testBit_lt_two_pow (by norm_num [hd] : d < 2 ^ 7)] at h
    norm_num at h
    exact h
  have h7f : d &&& 0x7f = d := by
    have h := Nat.and_pow_two_sub_one_of_lt_two_pow
      (x := d) (n := 7) (by norm_num [hd])
    norm_num at h
    exact h
  unfold decodeLength decodeLengthAux
  simp [h80, h7f]

/-- Decoding an `encodeLength` output always yields a value no larger than
the encoded one: the value itself when it fits in one digit, and only the
most-significant digit otherwise (the reversal bug puts the clear
continuation bit first). -/
theorem decodeLength_encodeLength_le (L : Nat) (rest : List Nat)
    (hL : L ≤ 268435455) :
    ∃ v t, decodeLength (encodeLength L ++ rest) = (.ok v, t) ∧ v ≤ L := by
  by_cases hs : L < 128
  · rw [encodeLength_small L hs]
    exact ⟨L, rest, decodeLength_head_clear L rest hs, Nat.le_refl _⟩
  · have h1 : 1 ≤ L := by omega
    have h2 : L < 128 ^ 5 := by norm_num; omega
    obtain ⟨d, t, hrev, hd, hdle⟩ := encodeLengthDigits_reverse_head 5 L h1 h2
    rw [show encodeLength L = d :: t from by
      rw [encodeLength, if_neg (by omega : ¬ L = 0)]; exact hrev]
    rw [List.cons_append]
    exact ⟨d, t ++ rest, decodeLength_head_clear d (t ++ rest) hd, hdle⟩

/-- The fixed-header byte written for a CONNECT message with a valid QoS
decodes back to type nibble 1. -/
theorem setHeader_connect_nibble (hdr : Legacy.Header)
    (ht : hdr.MessageType = Legacy.CONNECT) (hq : hdr.QosLevel < 3) :
    (Legacy.setHeader hdr &&& 0xF0) >>> 4 = 1 := by
  obtain ⟨mt, dup, ret, qos⟩ := hdr
  simp only [Legacy.CONNECT] at ht
  simp only at ht hq
  subst ht
  cases dup <;> cases ret <;> interval_cases qos <;> decide

/-- Bit 7 of the connect-flags byte is set whenever the username flag is. -/
theorem setConnectFlags_username_bit (cf : Legacy.ConnectFlags)
    (h : cf.UsernameFlag = true) :
    (Legacy.setConnectFlags cf).testBit 7 = true := by
  have hx : ((boolToByte true <<< 7 : Nat)).testBit 7 = true := by decide
  unfold Legacy.setConnectFlags
  rw [h]
  simp [Nat.testBit_or, hx]

/-- Bit 6 of the connect-flags byte is set whenever the password flag is. -/
theorem setConnectFlags_password_bit (cf : Legacy.ConnectFlags)
    (h : cf.PasswordFlag = true) :
    (Legacy.setConnectFlags cf).testBit 6 = true := by
  have hx : ((boolToByte true <<< 6 : Nat)).testBit 6 = true := by decide
  unfold Legacy.setConnectFlags
  rw [h]
  simp [Nat.testBit_or, hx]

theorem setString_length (v : List Nat) :
    (setString v).length = 2 + v.length := by
  simp [setString, setUint16]
  omega

/-- The CONNECT encoder omits the username (resp. password) string when it
is empty even though its flag is set, so the decoder's read size exceeds
the encoded body by at least the two length-prefix bytes of the omitted
string. -/
theorem connect_body_length_lt_readSize (m : Legacy.Mqtt)
    (htype : m.Header.MessageType = Legacy.CONNECT)
    (hflag : (m.ConnectFlags.UsernameFlag = true ∧ m.Username = []) ∨
             (m.ConnectFlags.PasswordFlag = true ∧ m.Password = [])) :
    (Legacy.encodeBody m).length + 2 ≤ Legacy.connectReadSize m := by
  unfold Legacy.encodeBody Legacy.connectReadSize
  rw [if_pos htype]
  rcases hflag with ⟨hu, hU⟩ | ⟨hp, hP⟩ <;>
    cases hw : m.ConnectFlags.WillFlag <;>
    cases hu2 : m.ConnectFlags.UsernameFlag <;>
    cases hp2 : m.ConnectFlags.PasswordFlag <;>
    simp_all [setString_length, setUint8, setUint16, List.length_append,
      apply_ite List.length] <;>
    (try split_ifs) <;> omega

/-- Every successful CONNECT decode consumed at least `connectReadSize` of
its remaining-length budget. -/
theorem decodeConnect_ok_size (hdr : Legacy.Header) (s : List Nat) (B : Nat)
    (m1 : Legacy.Mqtt) (h : Legacy.decodeConnect hdr s B = .ok m1) :
    Legacy.connectReadSize m1 ≤ B := by
  unfold Legacy.decodeConnect at h
  split at h
  · exact absurd h (by simp)
  · next pn s1 r1 h1 =>
    split at h
    · exact absurd h (by simp)
    · next ver s2 r2 h2 =>
      split at h
      · exact absurd h (by simp)
      · next cf s3 r3 h3 =>
        split at h
        · exact absurd h (by simp)
        · next ka s4 r4 h4 =>
          split at h
          · exact absurd h (by simp)
          · next cid s5 r5 h5 =>
            split at h
            · exact absurd h (by simp)
            · next wt s6 r6 h6 =>
              split at h
              · exact absurd h (by simp)
              · next wm s7 r7 h7 =>
                split at h
                · exact absurd h (by simp)
                · next un s8 r8 h8 =>
                  split at h
                  · exact absurd h (by simp)
                  · next pw s9 r9 h9 =>
                    rw [Except.ok.injEq] at h
                    subst h
                    have e1 := getString_ok_size _ _ _ _ _ h1
                    have e2 := getUint8_ok_size _ _ _ _ _ h2
                    have e3 := getConnectFlags_ok_size _ _ _ _ _ h3
                    have e4 := getUint16_ok_size _ _ _ _ _ h4
                    have e5 := getString_ok_size _ _ _ _ _ h5
                    have e6 := getStringIf_ok_size _ _ _ _ _ _ h6
                    have e7 := getStringIf_ok_size _ _ _ _ _ _ h7
                    have e8 := getStringIf_ok_size _ _ _ _ _ _ h8
                    have e9 := getStringIf_ok_size _ _ _ _ _ _ h9
                    unfold Legacy.connectReadSize
                    cases hw : cf.WillFlag <;> cases hu : cf.UsernameFlag <;>
                      cases hp : cf.PasswordFlag <;>
                      simp only [hw, hu, hp, if_true, if_false,
                        Bool.false_eq_true, if_pos, if_neg,
                        Bool.true_eq_false] at e6 e7 e8 e9 ⊢ <;>
                      simp_all <;> omega

/-- A CONNECT encode with a valid QoS produces none of the three
`valid` errors. -/
theorem valid_none_qos (m : Legacy.Mqtt) (h : Legacy.valid m = none) :
    m.Header.QosLevel < 3 := by
  unfold Legacy.valid at h
  split_ifs at h with h1 h2 h3
  simp [Legacy.qosIsValid, Legacy.qosFirstInvalid] at h2
  exact h2

/-- `getHeader` on a byte followed by a stream whose remaining-length field
decodes to `v`. -/
theorem getHeader_cons_ok (b : Nat) (s : List Nat) (v : Nat) (t : List Nat)
    (hdec : decodeLength s = (.ok v, t)) :
    Legacy.getHeader (b :: s) =
      .ok ({ MessageType := (b &&& 0xF0) >>> 4
             DupFlag := decide (b &&& 0x08 > 0)
             Retain := decide (b &&& 0x01 > 0)
             QosLevel := (b &&& 0x06) >>> 1 }, v, t) := by
  simp only [Legacy.getHeader, hdec]

/-! ## Claims -/

/-- Claim C1: for every supported message type and a representative field
assignment `m`, decoding the bytes produced by encoding `m` yields a
message structurally equal to `m`.  The code violates this on the
repository's own test representative, the PUBACK with `MessageId` 0x1234
(`TestEncodeDecode` in `mqtt_test.go`): encoding writes the correct bytes
`40 02 12 34`, but decoding them yields `MessageId` 0x34, because
`getUint16` computes `uint16(b[0]<<8)` with the shift performed at `byte`
width, discarding the high byte. -/
theorem C1_puback_roundtrip_mismatch :
    Legacy.Encode pubAckTestVector = .ok [0x40, 0x02, 0x12, 0x34] ∧
    Legacy.DecodeRead [0x40, 0x02, 0x12, 0x34] =
      .ok { Header := { MessageType := Legacy.PUBACK }, MessageId := 0x34 } ∧
    Legacy.DecodeRead [0x40, 0x02, 0x12, 0x34] ≠ .ok pubAckTestVector := by
  refine ⟨by decide, by decide, by decide⟩

/-- Claim C2: the VarInt boundary table.  `decodeLength` maps every listed
byte sequence to the listed value, and `encodeLength` is correct on the
single-byte values 0 and 127; but for every multi-byte value the digit
loop's output is written in reverse (`buf.WriteByte(blen[len(blen)-i])`),
so 128 encodes to `01 80` instead of the listed `80 01`, and likewise for
the other multi-byte boundary values. -/
theorem C2_varint_boundary_table :
    (decodeLength [0x00] = (.ok 0, []) ∧
     decodeLength [0x7F] = (.ok 127, []) ∧
     decodeLength [0x80, 0x01] = (.ok 128, []) ∧
     decodeLength [0xFF, 0x7F] = (.ok 16383, []) ∧
     decodeLength [0x80, 0x80, 0x01] = (.ok 16384, []) ∧
     decodeLength [0xFF, 0xFF, 0x7F] = (.ok 2097151, []) ∧
     decodeLength [0x80, 0x80, 0x80, 0x01] = (.ok 2097152, []) ∧
     decodeLength [0xFF, 0xFF, 0xFF, 0x7F] = (.ok 268435455, [])) ∧
    (encodeLength 0 = [0x00] ∧ encodeLength 127 = [0x7F]) ∧
    (encodeLength 128 = [0x01, 0x80] ∧
     encodeLength 16383 = [0x7F, 0xFF] ∧
     encodeLength 16384 = [0x01, 0x80, 0x80] ∧
     encodeLength 2097151 = [0x7F, 0xFF, 0xFF] ∧
     encodeLength 2097152 = [0x01, 0x80, 0x80, 0x80] ∧
     encodeLength 268435455 = [0x7F, 0xFF, 0xFF, 0xFF]) ∧
    encodeLength 128 ≠ [0x80, 0x01] := by
  refine ⟨by decide, by decide, by decide, by decide⟩

/-- Claim C3: the 16-bit primitives.  The write side is correct
(`setUint16 0x1234 = 12 34`), but the read side computes
`uint16(b[0]<<8) + uint16(b[1])`, where `b[0]<<8` is evaluated at `byte`
width and is always zero: reading back the bytes `12 34` yields 0x34, not
256*0x12 + 0x34 = 0x1234. -/
theorem C3_uint16_read_drops_high_byte :
    setUint16 0x1234 = [0x12, 0x34] ∧
    getUint16 [0x12, 0x34] 2 = .ok (0x34, [], 0) ∧
    getUint16 [0x12, 0x34] 2 ≠ .ok (0x1234, [], 0) := by
  refine ⟨by decide, by decide, by decide⟩

/-- Claim C4: truncated input must yield `UnexpectedEndOfInput`, never a
panic.  `DecodeOneMessage` discards the error returned by `Header.Decode`;
on empty input the message type defaults to 0, `NewMessage` returns a nil
message, and the `msg.Decode` call panics on the nil interface.  On the
one-byte input `10` (a truncated CONNECT) it continues with a zero
remaining length and fails with `dataExceedsPacketError` instead of an
end-of-input error. -/
theorem C4_truncated_input_panics :
    Msgs.DecodeOneMessage [] = .panicked ∧
    Msgs.DecodeOneMessage [0x10] = .err .dataExceeds ∧
    Err.dataExceeds ≠ Err.eof := by
  refine ⟨by decide, by decide, by decide⟩

/-- Claim C5: `decodeOneMessage` on an invalid type nibble (0 or 15) must
fail with `InvalidMessageType`, and on every valid nibble must construct
that type's variant.  Instead, because the `NewMessage` error is discarded
and the nil message is dereferenced, nibbles 0 and 15 panic; and
`NewMessage` has no case for PINGREQ (12), PINGRESP (13) or DISCONNECT
(14), so those valid nibbles panic as well instead of being decoded. -/
theorem C5_dispatch_panics_on_invalid_and_ping_types :
    Msgs.DecodeOneMessage [0x00, 0x00] = .panicked ∧
    Msgs.DecodeOneMessage [0xF0, 0x00] = .panicked ∧
    Msgs.DecodeOneMessage [0xC0, 0x00] = .panicked ∧
    Msgs.DecodeOneMessage [0xD0, 0x00] = .panicked ∧
    Msgs.DecodeOneMessage [0xE0, 0x00] = .panicked ∧
    Msgs.NewMessage Msgs.MsgPingReq = none ∧
    Msgs.NewMessage Msgs.MsgPingResp = none ∧
    Msgs.NewMessage Msgs.MsgDisconnect = none := by
  refine ⟨by decide, by decide, by decide, by decide, by decide, by decide,
    by decide, by decide⟩

/-- Claim C6: a PUBACK-family packet with declared remaining length 1 or 3
must fail to decode.  Remaining length 1 does fail
(`dataExceedsPacketError`), but `AckCommon.Decode` never checks that the
budget was consumed to zero: the packet `40 03 12 34 56` (remaining length
3 with 3 body bytes) decodes successfully, leaving one unconsumed byte,
contradicting the repository's own `TestErrorDecode`. -/
theorem C6_ack_leftover_budget_accepted :
    Msgs.DecodeOneMessage [0x40, 0x01, 0x12] = .err .dataExceeds ∧
    Msgs.DecodeOneMessage [0x40, 0x03, 0x12, 0x34, 0x56] =
      .ok (.pubAck { MessageId := 0x34 }) := by
  refine ⟨by decide, by decide⟩

/-- Claim C7: every message whose body exceeds 268435455 bytes must fail
to encode with the message-too-long error, with zero bytes written to the
sink.  The cited sink path of `messages.go` (`Publish.Encode` →
`writeMessage` → `Header.Encode`) has no size check at all: the oversized
PUBLISH below (body of 268435459 bytes) encodes successfully, writing the
full packet — the header byte `30`, a five-byte remaining-length field
`01 80 80 80 83`, and the whole body — contradicting the claim, the spec
and the intent shown by `TestErrorEncode` (which expects an encode error
for an oversized payload) and by the declared-but-unused
`msgTooLongError`.  Only the legacy buffer-returning `Encode` of `mqtt.go`
performs the bound check, as the last conjunct shows. -/
theorem C7_sink_encode_missing_size_check :
    268435455 < (Msgs.publishBody oversizedMsgsPublish).length ∧
    Msgs.publishEncode oversizedMsgsPublish =
      .ok ([0x30, 0x01, 0x80, 0x80, 0x80, 0x83] ++
        Msgs.publishBody oversizedMsgsPublish) ∧
    Legacy.valid oversizedPublish = none ∧
    268435455 < (Legacy.encodeBody oversizedPublish).length ∧
    Legacy.Encode oversizedPublish = .error .msgTooLong := by
  have h3 : (setString [97]).length = 3 := rfl
  have hmbody : Msgs.publishBody oversizedMsgsPublish =
      setString [97] ++ [] ++ List.replicate 268435456 0 := rfl
  have hmlen : (Msgs.publishBody oversizedMsgsPublish).length = 268435459 := by
    rw [hmbody, List.length_append, List.length_append, List.length_replicate,
      h3]
    norm_num
  have hhdr : Msgs.headerEncode oversizedMsgsPublish.Header Msgs.MsgPublish
      (Msgs.publishBody oversizedMsgsPublish).length =
      .ok [0x30, 0x01, 0x80, 0x80, 0x80, 0x83] := by
    rw [hmlen]
    decide
  have hencM : Msgs.publishEncode oversizedMsgsPublish =
      .ok ([0x30, 0x01, 0x80, 0x80, 0x80, 0x83] ++
        Msgs.publishBody oversizedMsgsPublish) := by
    unfold Msgs.publishEncode Msgs.writeMessage
    simp only [hhdr]
  have hv : Legacy.valid oversizedPublish = none := rfl
  have hbody : Legacy.encodeBody oversizedPublish =
      setString [97] ++ [] ++ List.replicate 268435456 0 := rfl
  have hlen : 268435455 < (Legacy.encodeBody oversizedPublish).length := by
    rw [hbody, List.length_append, List.length_append, List.length_replicate,
      h3]
    omega
  have hencL : Legacy.Encode oversizedPublish = .error .msgTooLong := by
    unfold Legacy.Encode
    rw [hv]
    simp only [gt_iff_lt, hlen, if_true]
  exact ⟨by omega, hencM, hv, hlen, hencL⟩

/-- Counterexample to claim C8: two SUBSCRIBE messages that differ only in
`MessageId` encode to the same bytes when the header QoS is 0, so the
message-id is not unconditionally present on the wire. -/
theorem C8_subscribe_id_not_on_wire :
    Msgs.subscribeEncode
        { Header := { QosLevel := 0 }, MessageId := 1, Topics := [[97]], TopicsQos := [1] } =
      Msgs.subscribeEncode
        { Header := { QosLevel := 0 }, MessageId := 2, Topics := [[97]], TopicsQos := [1] } ∧
    (1 : Nat) ≠ 2 := by
  refine ⟨by decide, by decide⟩

/-- When the header QoS gate is closed, `Subscribe.Encode`'s body does not
depend on the message-id at all. -/
theorem subscribeBody_qos0_invariant (m : Msgs.Subscribe) (i j : Nat)
    (h : Legacy.qosHasId m.Header.QosLevel = false) :
    Msgs.subscribeBody { m with MessageId := i } =
      Msgs.subscribeBody { m with MessageId := j } := by
  simp [Msgs.subscribeBody, h]

/-- When the header QoS gate is open, the message-id is on the wire:
consecutive ids give different bodies. -/
theorem subscribeBody_qos12_sensitive (m : Msgs.Subscribe) (i : Nat)
    (h : Legacy.qosHasId m.Header.QosLevel = true) :
    Msgs.subscribeBody { m with MessageId := i } ≠
      Msgs.subscribeBody { m with MessageId := i + 1 } := by
  intro heq
  simp only [Msgs.subscribeBody, h, if_pos] at heq
  exact setUint16_ne_succ i (List.append_cancel_right heq)

/-- `SubAck.Encode`'s body always carries the message-id, whatever the
header QoS. -/
theorem subAckBody_id_sensitive (sa : Msgs.SubAck) (i : Nat) :
    Msgs.subAckBody { sa with MessageId := i } ≠
      Msgs.subAckBody { sa with MessageId := i + 1 } := by
  intro h
  simp only [Msgs.subAckBody] at h
  exact setUint16_ne_succ i (List.append_cancel_right h)

/-- Claim C8 amended: for SUBACK the 16-bit message-id is unconditionally
present on the wire (encode always writes it first, and every successful
decode reads it from the first two body bytes).  For SUBSCRIBE it is not
unconditional: encode writes it iff the message's own header QoS is 1 or 2,
and `Subscribe.Decode` reads it iff the receiver's header QoS is 1 or 2 —
through `DecodeOneMessage` the receiver is zero-valued, so the id is never
read there and stays 0. -/
theorem C8_amended_id_gated_by_qos (m : Msgs.Subscribe) (sa : Msgs.SubAck)
    (i j : Nat) :
    (Legacy.qosHasId m.Header.QosLevel = false →
      Msgs.subscribeBody { m with MessageId := i } =
        Msgs.subscribeBody { m with MessageId := j }) ∧
    (Legacy.qosHasId m.Header.QosLevel = true →
      Msgs.subscribeBody { m with MessageId := i } ≠
        Msgs.subscribeBody { m with MessageId := i + 1 }) ∧
    Msgs.subAckBody { sa with MessageId := i } ≠
      Msgs.subAckBody { sa with MessageId := i + 1 } ∧
    (∀ s rem m1, Msgs.subscribeDecode {} s rem = .ok m1 → m1.MessageId = 0) ∧
    (∀ msg s rem m1, Msgs.subAckDecode msg s rem = .ok m1 →
      2 ≤ rem ∧ ∃ b0 b1 t, s = b0 :: b1 :: t ∧
        m1.MessageId = byteOf (b0 <<< 8) + b1) :=
  ⟨subscribeBody_qos0_invariant m i j, subscribeBody_qos12_sensitive m i,
   subAckBody_id_sensitive sa i,
   fun s rem m1 => subscribeDecode_zero_receiver_id s rem m1,
   fun msg s rem m1 => subAckDecode_reads_id msg s rem m1⟩

/-- Witness for the amended C8 at concrete messages and packets. -/
theorem C8_amended_id_gated_by_qos_witness :
    (Msgs.subscribeBody { Header := { QosLevel := 0 }, MessageId := 1, Topics := [[97]], TopicsQos := [1] } =
      Msgs.subscribeBody { Header := { QosLevel := 0 }, MessageId := 9, Topics := [[97]], TopicsQos := [1] }) ∧
    (Msgs.subscribeBody { Header := { QosLevel := 1 }, MessageId := 1, Topics := [[97]], TopicsQos := [1] } ≠
      Msgs.subscribeBody { Header := { QosLevel := 1 }, MessageId := 2, Topics := [[97]], TopicsQos := [1] }) ∧
    (Msgs.subAckBody { MessageId := 1 } ≠ Msgs.subAckBody { MessageId := 2 }) ∧
    ({ MessageId := 0, Topics := [[97]], TopicsQos := [2] } : Msgs.Subscribe).MessageId = 0 ∧
    (2 ≤ 3 ∧ ∃ b0 b1 t, ([0x12, 0x34, 0x02] : List Nat) = b0 :: b1 :: t ∧
      ({ MessageId := 0x34, TopicsQos := [2] } : Msgs.SubAck).MessageId = byteOf (b0 <<< 8) + b1) := by
  refine ⟨?_, ?_, ?_, ?_, ?_⟩
  · exact (C8_amended_id_gated_by_qos
      { Header := { QosLevel := 0 }, MessageId := 1, Topics := [[97]], TopicsQos := [1] }
      {} 1 9).1 (by decide)
  · exact (C8_amended_id_gated_by_qos
      { Header := { QosLevel := 1 }, MessageId := 1, Topics := [[97]], TopicsQos := [1] }
      {} 1 9).2.1 (by decide)
  · exact (C8_amended_id_gated_by_qos {} { MessageId := 1 } 1 9).2.2.1
  · exact (C8_amended_id_gated_by_qos {} {} 1 9).2.2.2.1
      [0x00, 0x01, 97, 0x02] 4
      { MessageId := 0, Topics := [[97]], TopicsQos := [2] } (by decide)
  · exact (C8_amended_id_gated_by_qos {} {} 1 9).2.2.2.2
      {} [0x12, 0x34, 0x02] 3
      { MessageId := 0x34, TopicsQos := [2] } (by decide)

/-- Counterexample to claim C9: the PUBACK packet `46 02 00 07` carries the
invalid QoS value 3 in its fixed-header bits 2-1, yet `DecodeRead` returns
it successfully with `QosLevel = 3` instead of failing with an invalid-QoS
error. -/
theorem C9_decode_accepts_qos3 :
    Legacy.DecodeRead [0x46, 0x02, 0x00, 0x07] =
      .ok { Header := { MessageType := Legacy.PUBACK, QosLevel := 3 }, MessageId := 7 } ∧
    Legacy.qosIsValid 3 = false := by
  refine ⟨by decide, by decide⟩

/-- Claim C9 amended: decode performs no range check on the header QoS
bits: every PUBACK packet `46 02 b0 b1` (QoS bits = 3) decodes
successfully to a message carrying `QosLevel = 3`, while the same range
check at encode time rejects that message with the invalid-QoS error. -/
theorem C9_amended_no_qos_check_on_decode (b0 b1 : Nat) :
    Legacy.DecodeRead [0x46, 0x02, b0, b1] =
      .ok { Header := { MessageType := Legacy.PUBACK, QosLevel := 3 }
            MessageId := byteOf (b0 <<< 8) + b1 } ∧
    Legacy.Encode
        { Header := { MessageType := Legacy.PUBACK, QosLevel := 3 }
          MessageId := byteOf (b0 <<< 8) + b1 } =
      .error .badQos := by
  exact ⟨rfl, rfl⟩

end MqttCodec

namespace MqttCodec

/-- Claim C10: in the legacy API, a CONNECT value with the username flag
set and an empty username (respectively password flag set and empty
password) has the flag bit set in the encoded connect-flags byte while the
corresponding length-prefixed string is omitted from the output, and the
decoder reads a string whenever the flag bit is set (`connectReadSize`
counts those reads, exceeding the encoded body by at least 2 bytes); hence
decoding the encoded bytes never returns the original value. -/
theorem C10_connect_empty_credential_no_roundtrip (m : Legacy.Mqtt)
    (bs : List Nat)
    (htype : m.Header.MessageType = Legacy.CONNECT)
    (hflag : (m.ConnectFlags.UsernameFlag = true ∧ m.Username = []) ∨
             (m.ConnectFlags.PasswordFlag = true ∧ m.Password = []))
    (henc : Legacy.Encode m = .ok bs) :
    (m.ConnectFlags.UsernameFlag = true →
      (Legacy.setConnectFlags m.ConnectFlags).testBit 7 = true) ∧
    (m.ConnectFlags.PasswordFlag = true →
      (Legacy.setConnectFlags m.ConnectFlags).testBit 6 = true) ∧
    (Legacy.encodeBody m).length + 2 ≤ Legacy.connectReadSize m ∧
    Legacy.DecodeRead bs ≠ .ok m := by
  refine ⟨setConnectFlags_username_bit m.ConnectFlags,
          setConnectFlags_password_bit m.ConnectFlags,
          connect_body_length_lt_readSize m htype hflag, ?_⟩
  unfold Legacy.Encode at henc
  split at henc
  · exact absurd henc (by simp)
  · next hvalid =>
    dsimp only [] at henc
    split at henc
    · exact absurd henc (by simp)
    · next hbig =>
      rw [Except.ok.injEq] at henc
      subst henc
      have hq := valid_none_qos m hvalid
      have hnib := setHeader_connect_nibble m.Header htype hq
      obtain ⟨v, t, hdec, hvle⟩ := decodeLength_encodeLength_le
        (Legacy.encodeBody m).length (Legacy.encodeBody m) (by omega)
      intro hcontra
      have hgh := getHeader_cons_ok (Legacy.setHeader m.Header)
        (encodeLength (Legacy.encodeBody m).length ++ Legacy.encodeBody m)
        v t hdec
      unfold Legacy.DecodeRead at hcontra
      split at hcontra
      · exact absurd hcontra (by simp)
      · next hdr rem s1 heq =>
        rw [hgh, Except.ok.injEq, Prod.mk.injEq] at heq
        obtain ⟨h_hdr, heq2⟩ := heq
        rw [Prod.mk.injEq] at heq2
        obtain ⟨h_rem, h_s1⟩ := heq2
        subst h_hdr
        subst h_rem
        subst h_s1
        simp only [hnib] at hcontra
        norm_num [Legacy.msgTypeIsValid, Legacy.CONNECT,
          Legacy.msgTypeFirstInvalid] at hcontra
        have hsz := decodeConnect_ok_size _ _ _ _ hcontra
        have hcmp := connect_body_length_lt_readSize m htype hflag
        omega

/-- Witness for C10 at a concrete CONNECT with the username flag set and an
empty username. -/
theorem C10_connect_empty_credential_no_roundtrip_witness :
    emptyUsernameConnect.Header.MessageType = Legacy.CONNECT ∧
    (emptyUsernameConnect.ConnectFlags.UsernameFlag = true ∧
      emptyUsernameConnect.Username = []) ∧
    Legacy.Encode emptyUsernameConnect =
      .ok [16, 15, 0, 6, 77, 81, 73, 115, 100, 112, 3, 130, 0, 10, 0, 1, 99] ∧
    (Legacy.setConnectFlags emptyUsernameConnect.ConnectFlags).testBit 7 = true ∧
    (Legacy.encodeBody emptyUsernameConnect).length + 2 ≤
      Legacy.connectReadSize emptyUsernameConnect ∧
    Legacy.DecodeRead
        [16, 15, 0, 6, 77, 81, 73, 115, 100, 112, 3, 130, 0, 10, 0, 1, 99] ≠
      .ok emptyUsernameConnect := by
  have h1 : emptyUsernameConnect.Header.MessageType = Legacy.CONNECT := by
    decide
  have h2 : emptyUsernameConnect.ConnectFlags.UsernameFlag = true ∧
      emptyUsernameConnect.Username = [] := ⟨by decide, by decide⟩
  have h3 : Legacy.Encode emptyUsernameConnect =
      .ok [16, 15, 0, 6, 77, 81, 73, 115, 100, 112, 3, 130, 0, 10, 0, 1, 99] := by
    decide
  have hmain := C10_connect_empty_credential_no_roundtrip emptyUsernameConnect
    [16, 15, 0, 6, 77, 81, 73, 115, 100, 112, 3, 130, 0, 10, 0, 1, 99]
    h1 (Or.inl h2) h3
  exact ⟨h1, h2, h3, hmain.1 h2.1, hmain.2.2.1, hmain.2.2.2⟩

end MqttCodec
